import Mathlib

/-
Verification development for the colorspace conversion filter
(libavfilter/vf_colorspace.c).

The filter's configuration logic (tag resolution, passthrough flags,
fixed-point coefficient quantisation), its range helper, its slice
scheduler and its gamma-LUT builder are embedded shallowly below.
Machine doubles are modelled by exact rationals (for the quantised
coefficient tables) or by real numbers (for the gamma LUTs); `lrint`
is modelled by `round`, and the saturating clip by `av_clip_int16`.
-/

set_option maxRecDepth 4096

namespace VfColorspace

/-! ### Enum codes (libavutil/pixfmt.h values, as used by the filter) -/

/-- AVCOL_PRI_UNSPECIFIED -/
abbrev PRI_UNSPECIFIED : ℕ := 2
/-- AVCOL_TRC_UNSPECIFIED -/
abbrev TRC_UNSPECIFIED : ℕ := 2
/-- AVCOL_TRC_BT2020_10 -/
abbrev TRC_BT2020_10 : ℕ := 14
/-- AVCOL_TRC_BT2020_12 -/
abbrev TRC_BT2020_12 : ℕ := 15
/-- AVCOL_TRC_NB -/
abbrev TRC_NB : ℕ := 19
/-- AVCOL_SPC_UNSPECIFIED -/
abbrev SPC_UNSPECIFIED : ℕ := 2
/-- AVCOL_RANGE_UNSPECIFIED / _MPEG / _JPEG -/
abbrev RANGE_UNSPECIFIED : ℕ := 0
abbrev RANGE_MPEG : ℕ := 1
abbrev RANGE_JPEG : ℕ := 2
/-- enum Colorspace: CS_UNSPECIFIED .. CS_BT2020, CS_NB -/
abbrev CS_UNSPECIFIED : ℕ := 0
abbrev CS_BT2020 : ℕ := 8
abbrev CS_NB : ℕ := 9

/-- Exact rational literal, given in lowest terms (checked by `decide`):
written through the `Rat` constructor so that equality tests on table
entries evaluate by kernel reduction. -/
def q (n : ℤ) (d : ℕ) (h1 : d ≠ 0 := by decide)
    (h2 : n.natAbs.Coprime d := by decide) : ℚ := ⟨n, d, h1, h2⟩

theorem q_eq_div (n : ℤ) (d : ℕ) (h1 : d ≠ 0) (h2 : n.natAbs.Coprime d) :
    q n d h1 h2 = (n : ℚ) / (d : ℚ) := by
  unfold q
  rw [Rat.mk'_eq_divInt, Rat.divInt_eq_div]
  push_cast
  rfl

/-! ### Default tables (`default_trc`, `default_prm`, `default_csp`) -/

/-- Table `default_trc[CS_NB + 1]`: convenience preset to transfer characteristic. -/
def default_trc (cs : ℕ) : ℕ :=
  match cs with
  | 0 => 2   -- CS_UNSPECIFIED -> AVCOL_TRC_UNSPECIFIED
  | 1 => 4   -- CS_BT470M      -> AVCOL_TRC_GAMMA22
  | 2 => 5   -- CS_BT470BG     -> AVCOL_TRC_GAMMA28
  | 3 => 6   -- CS_BT601_6_525 -> AVCOL_TRC_SMPTE170M
  | 4 => 6   -- CS_BT601_6_625 -> AVCOL_TRC_SMPTE170M
  | 5 => 1   -- CS_BT709       -> AVCOL_TRC_BT709
  | 6 => 6   -- CS_SMPTE170M   -> AVCOL_TRC_SMPTE170M
  | 7 => 7   -- CS_SMPTE240M   -> AVCOL_TRC_SMPTE240M
  | 8 => 14  -- CS_BT2020      -> AVCOL_TRC_BT2020_10
  | _ => 2   -- CS_NB          -> AVCOL_TRC_UNSPECIFIED

/-- Table `default_prm[CS_NB + 1]`: convenience preset to primaries. -/
def default_prm (cs : ℕ) : ℕ :=
  match cs with
  | 0 => 2   -- UNSPECIFIED
  | 1 => 4   -- BT470M
  | 2 => 5   -- BT470BG
  | 3 => 6   -- SMPTE170M
  | 4 => 5   -- BT470BG
  | 5 => 1   -- BT709
  | 6 => 6   -- SMPTE170M
  | 7 => 7   -- SMPTE240M
  | 8 => 9   -- BT2020
  | _ => 2

/-- Table `default_csp[CS_NB + 1]`: convenience preset to matrix coefficients. -/
def default_csp (cs : ℕ) : ℕ :=
  match cs with
  | 0 => 2   -- UNSPECIFIED
  | 1 => 6   -- SMPTE170M
  | 2 => 5   -- BT470BG
  | 3 => 6   -- SMPTE170M
  | 4 => 5   -- BT470BG
  | 5 => 1   -- BT709
  | 6 => 6   -- SMPTE170M
  | 7 => 7   -- SMPTE240M
  | 8 => 9   -- BT2020_NCL
  | _ => 2

/-! ### Transfer characteristics -/

/-- The `struct TransferCharacteristics` record (doubles modelled as exact rationals). -/
structure TransferCharacteristics where
  alpha : ℚ
  beta : ℚ
  gamma : ℚ
  delta : ℚ
deriving DecidableEq, Repr

/-- The `transfer_characteristics[AVCOL_TRC_NB]` table; absent entries are
all-zero (alpha = 0 means "not parametric"). -/
def transfer_characteristics (trc : ℕ) : TransferCharacteristics :=
  match trc with
  | 1  => ⟨q 1099 1000, q 9 500, q 9 20, q 9 2⟩          -- BT709: 1.099, 0.018, 0.45, 4.5
  | 4  => ⟨q 1 1, q 0 1, q 5 11, q 0 1⟩                  -- GAMMA22: 1, 0, 1/2.2, 0
  | 5  => ⟨q 1 1, q 0 1, q 5 14, q 0 1⟩                  -- GAMMA28: 1, 0, 1/2.8, 0
  | 6  => ⟨q 1099 1000, q 9 500, q 9 20, q 9 2⟩          -- SMPTE170M
  | 7  => ⟨q 2223 2000, q 57 2500, q 9 20, q 4 1⟩        -- SMPTE240M: 1.1115, 0.0228, 0.45, 4.0
  | 8  => ⟨q 1 1, q 0 1, q 1 1, q 0 1⟩                   -- LINEAR
  | 11 => ⟨q 1099 1000, q 9 500, q 9 20, q 9 2⟩          -- IEC61966_2_4
  | 13 => ⟨q 211 200, q 7827 2500000, q 5 12, q 323 25⟩  -- IEC61966_2_1: 1.055, 0.0031308, 1/2.4, 12.92
  | 14 => ⟨q 1099 1000, q 9 500, q 9 20, q 9 2⟩          -- BT2020_10
  | 15 => ⟨q 10993 10000, q 181 10000, q 9 20, q 9 2⟩    -- BT2020_12: 1.0993, 0.0181, 0.45, 4.5
  | _  => ⟨q 0 1, q 0 1, q 0 1, q 0 1⟩

/-- Lookup `get_transfer_characteristics`: out-of-range or non-parametric
(`alpha == 0`) entries give NULL. -/
def get_transfer_characteristics (trc : ℕ) : Option TransferCharacteristics :=
  if TRC_NB ≤ trc then none
  else
    let c := transfer_characteristics trc
    if c.alpha.num = 0 then none else some c

/-- Modelled from the spec: `avpriv_get_trc_function_from_trc`
(libavutil/color_utils.c, not under src/) provides a named transfer
function for these codes; only consulted when the parametric table has no
entry. -/
def avpriv_trc_fn_exists (trc : ℕ) : Bool :=
  decide (trc = 1 ∨ trc = 4 ∨ trc = 5 ∨ trc = 6 ∨ trc = 7 ∨ trc = 8 ∨
          trc = 9 ∨ trc = 10 ∨ trc = 11 ∨ trc = 12 ∨ trc = 13 ∨ trc = 14 ∨
          trc = 15 ∨ trc = 16 ∨ trc = 17)

/-! ### Primaries and luma coefficient tables -/

/-- One row of the colour-primaries descriptor: chromaticities of R, G, B
and the white point, as exact rationals. -/
structure PrimariesDesc where
  xr : ℚ
  yr : ℚ
  xg : ℚ
  yg : ℚ
  xb : ℚ
  yb : ℚ
  xw : ℚ
  yw : ℚ
deriving DecidableEq, Repr

/-- Modelled from the spec: `av_csp_primaries_desc_from_id`
(libavutil/csp.c, not under src/) — the per-enum primaries table (§4.1);
chromaticity values are the published ITU/SMPTE ones. -/
def av_csp_primaries_desc_from_id (prm : ℕ) : Option PrimariesDesc :=
  if prm = 1 then some ⟨q 16 25, q 33 100, q 3 10, q 3 5, q 3 20, q 3 50, q 3127 10000, q 329 1000⟩
  else if prm = 4 then some ⟨q 67 100, q 33 100, q 21 100, q 71 100, q 7 50, q 2 25, q 31 100, q 79 250⟩
  else if prm = 5 then some ⟨q 16 25, q 33 100, q 29 100, q 3 5, q 3 20, q 3 50, q 3127 10000, q 329 1000⟩
  else if prm = 6 then some ⟨q 63 100, q 17 50, q 31 100, q 119 200, q 31 200, q 7 100, q 3127 10000, q 329 1000⟩
  else if prm = 7 then some ⟨q 63 100, q 17 50, q 31 100, q 119 200, q 31 200, q 7 100, q 3127 10000, q 329 1000⟩
  else if prm = 8 then some ⟨q 681 1000, q 319 1000, q 243 1000, q 173 250, q 29 200, q 49 1000, q 31 100, q 79 250⟩
  else if prm = 9 then some ⟨q 177 250, q 73 250, q 17 100, q 797 1000, q 131 1000, q 23 500, q 3127 10000, q 329 1000⟩
  else if prm = 10 then some ⟨q 147 200, q 53 200, q 137 500, q 359 500, q 167 1000, q 9 1000, q 1 3, q 1 3⟩
  else if prm = 11 then some ⟨q 17 25, q 8 25, q 53 200, q 69 100, q 3 20, q 3 50, q 157 500, q 351 1000⟩
  else if prm = 12 then some ⟨q 17 25, q 8 25, q 53 200, q 69 100, q 3 20, q 3 50, q 3127 10000, q 329 1000⟩
  else if prm = 22 then some ⟨q 63 100, q 17 50, q 59 200, q 121 200, q 31 200, q 77 1000, q 3127 10000, q 329 1000⟩
  else none

/-- Modelled from the spec: `av_csp_luma_coeffs_from_avcsp`
(libavutil/csp.c, not under src/) — matrix enum to (Kr, Kb) (§4.1). -/
def av_csp_luma_coeffs_from_avcsp (csp : ℕ) : Option (ℚ × ℚ) :=
  if csp = 1 then some (q 1063 5000, q 361 5000)   -- BT709: 0.2126, 0.0722
  else if csp = 4 then some (q 3 10, q 1 10)       -- FCC: 0.30, 0.10
  else if csp = 5 then some (q 299 1000, q 57 500)  -- BT470BG: 0.299, 0.114
  else if csp = 6 then some (q 299 1000, q 57 500)  -- SMPTE170M
  else if csp = 7 then some (q 53 250, q 87 1000)   -- SMPTE240M: 0.212, 0.087
  else if csp = 8 then some (q 1 4, q 1 4)          -- YCGCO
  else if csp = 9 then some (q 2627 10000, q 427 2500)   -- BT2020_NCL: 0.2627, 0.1708
  else if csp = 10 then some (q 2627 10000, q 427 2500)  -- BT2020_CL
  else none

/-! ### Pixel format descriptor and frames -/

/-- The slice of `AVPixFmtDescriptor` the filter reads. -/
structure PixFmtDesc where
  nb_components : ℕ
  depth : ℕ
  log2_chroma_w : ℕ
  log2_chroma_h : ℕ
  isRGB : Bool
  isFloat : Bool
deriving DecidableEq, Repr

/-- Macros `supported_depth` / `supported_subsampling` / `supported_format`
(macros in create_filtergraph). -/
def supported_format (d : PixFmtDesc) : Bool :=
  (3 ≤ d.nb_components) &&
  (d.depth == 8 || d.depth == 10 || d.depth == 12 || d.depth == 16 || d.depth == 32) &&
  ((d.log2_chroma_w == 0 && d.log2_chroma_h == 0) ||
   (d.log2_chroma_w == 1 && d.log2_chroma_h == 0) ||
   (d.log2_chroma_w == 1 && d.log2_chroma_h == 1))

/-- An `AVFrame` as the filter sees it: geometry, format descriptor, the
four colour tags and the pixel payload (abstracted to a list of samples). -/
structure Frame where
  width : ℕ
  height : ℕ
  desc : PixFmtDesc
  color_primaries : ℕ
  color_trc : ℕ
  colorspace : ℕ
  color_range : ℕ
  data : List ℤ
deriving DecidableEq, Repr

/-! ### get_range_off -/

/-- Function `get_range_off`: returns `(off, y_rng, uv_rng)`, the updated
`did_warn_range` flag, and whether this call emitted the one-shot
"assuming tv/mpeg" message; `none` models AVERROR(EINVAL) with the output
parameters left unwritten. -/
def get_range_off (did_warn : Bool) (rng depth : ℕ) :
    Option ((ℤ × ℤ × ℤ) × Bool × Bool) :=
  if rng = RANGE_UNSPECIFIED then
    some ((16 * 2 ^ (depth - 8), 219 * 2 ^ (depth - 8), 224 * 2 ^ (depth - 8)),
          true, !did_warn)
  else if rng = RANGE_MPEG then
    some ((16 * 2 ^ (depth - 8), 219 * 2 ^ (depth - 8), 224 * 2 ^ (depth - 8)),
          did_warn, false)
  else if rng = RANGE_JPEG then
    some ((0, 256 * 2 ^ (depth - 8) - 1, 256 * 2 ^ (depth - 8) - 1),
          did_warn, false)
  else none

/-! ### 3x3 matrices over the rationals -/

/-- 3x3 matrix as a function on indices 0..2 (other indices give junk). -/
abbrev Mat3 (α : Type) := ℕ → ℕ → α

/-- Modelled from the spec: `ff_fill_rgb2yuv_table`
(libavfilter/colorspace.c, not under src/) — the RGB to YUV matrix from
(Kr, Kb) with Kg = 1 - Kr - Kb (§4.2). -/
def ff_fill_rgb2yuv_table (kr kb : ℚ) : Mat3 ℚ := fun m n =>
  match m, n with
  | 0, 0 => kr
  | 0, 1 => 1 - kr - kb
  | 0, 2 => kb
  | 1, 0 => -kr / (2 * (1 - kb))
  | 1, 1 => -(1 - kr - kb) / (2 * (1 - kb))
  | 1, 2 => 1 / 2
  | 2, 0 => 1 / 2
  | 2, 1 => -(1 - kr - kb) / (2 * (1 - kr))
  | 2, 2 => -kb / (2 * (1 - kr))
  | _, _ => 0

/-- Determinant, cofactor expansion along the first row. -/
def det3 (M : Mat3 ℚ) : ℚ :=
  M 0 0 * (M 1 1 * M 2 2 - M 1 2 * M 2 1)
  - M 0 1 * (M 1 0 * M 2 2 - M 1 2 * M 2 0)
  + M 0 2 * (M 1 0 * M 2 1 - M 1 1 * M 2 0)

/-- Modelled from the spec: `ff_matrix_invert_3x3`
(libavfilter/colorspace.c, not under src/) — cofactor/determinant
inversion (§4.2), exact over the rationals. -/
def ff_matrix_invert_3x3 (M : Mat3 ℚ) : Mat3 ℚ := fun m n =>
  match m, n with
  | 0, 0 => (M 1 1 * M 2 2 - M 1 2 * M 2 1) / det3 M
  | 0, 1 => (M 0 2 * M 2 1 - M 0 1 * M 2 2) / det3 M
  | 0, 2 => (M 0 1 * M 1 2 - M 0 2 * M 1 1) / det3 M
  | 1, 0 => (M 1 2 * M 2 0 - M 1 0 * M 2 2) / det3 M
  | 1, 1 => (M 0 0 * M 2 2 - M 0 2 * M 2 0) / det3 M
  | 1, 2 => (M 0 2 * M 1 0 - M 0 0 * M 1 2) / det3 M
  | 2, 0 => (M 1 0 * M 2 1 - M 1 1 * M 2 0) / det3 M
  | 2, 1 => (M 0 1 * M 2 0 - M 0 0 * M 2 1) / det3 M
  | 2, 2 => (M 0 0 * M 1 1 - M 0 1 * M 1 0) / det3 M
  | _, _ => 0

/-- Modelled from the spec: `ff_matrix_mul_3x3`
(libavfilter/colorspace.c, not under src/) — `dst = src2 * src1`, the
convention under which `ff_matrix_mul_3x3(yuv2yuv, yuv2rgb, rgb2yuv)`
chains YUV to RGB and then RGB to YUV. -/
def ff_matrix_mul_3x3 (src1 src2 : Mat3 ℚ) : Mat3 ℚ := fun m n =>
  src2 m 0 * src1 0 n + src2 m 1 * src1 1 n + src2 m 2 * src1 2 n

/-! ### Fixed-point quantisation of the coefficient tables
(create_filtergraph, lines 943-1016; one lane of the 8 replicated). -/

/-- Quantisation `yuv2rgb_coeffs[n][m] = lrint(28672 * bits * yuv2rgb[n][m] / in_rng)`
with `in_rng` the luma range for column 0 and the chroma range otherwise. -/
def quant_yuv2rgb (M : Mat3 ℚ) (bits iy iuv : ℤ) : Mat3 ℤ := fun n m =>
  round ((28672 * (bits : ℚ)) * M n m / (if m = 0 then (iy : ℚ) else (iuv : ℚ)))

/-- Quantisation `rgb2yuv_coeffs[n][m] = lrint(bits * out_rng * rgb2yuv[n][m] / 28672)`
with `out_rng` the luma range for row 0 and the chroma range otherwise. -/
def quant_rgb2yuv (M : Mat3 ℚ) (bits oy ouv : ℤ) : Mat3 ℤ := fun n m =>
  round ((bits : ℚ) * (if n = 0 then (oy : ℚ) else (ouv : ℚ)) * M n m / 28672)

/-- Quantisation `yuv2yuv_coeffs[m][n] = lrint(16384 * yuv2yuv[m][n] * out_rng * 2^idepth
/ (in_rng * 2^odepth))`: out range chosen by row, in range by column. -/
def quant_yuv2yuv (M : Mat3 ℚ) (idepth odepth : ℕ) (iy iuv oy ouv : ℤ) :
    Mat3 ℤ := fun m n =>
  round (16384 * M m n * (if m = 0 then (oy : ℚ) else (ouv : ℚ)) * (2 ^ idepth : ℚ) /
         ((if n = 0 then (iy : ℚ) else (iuv : ℚ)) * (2 ^ odepth : ℚ)))

/-! ### Filter context and configuration state -/

/-- The user-option slice of `ColorSpaceContext` plus the persistent
`did_warn_range` flag (defaults as in `colorspace_options`). -/
structure Ctx where
  user_all : ℕ := CS_UNSPECIFIED
  user_iall : ℕ := CS_UNSPECIFIED
  user_csp : ℕ := SPC_UNSPECIFIED
  user_icsp : ℕ := SPC_UNSPECIFIED
  user_rng : ℕ := RANGE_UNSPECIFIED
  user_irng : ℕ := RANGE_UNSPECIFIED
  user_prm : ℕ := PRI_UNSPECIFIED
  user_iprm : ℕ := PRI_UNSPECIFIED
  user_trc : ℕ := TRC_UNSPECIFIED
  user_itrc : ℕ := TRC_UNSPECIFIED
  user_format : Option PixFmtDesc := none
  fast_mode : Bool := false
  dither : ℕ := 0
  wp_adapt : ℕ := 0
  did_warn_range : Bool := false
deriving Repr

/-- The computed configuration of one `create_filtergraph` run: resolved
tags, passthrough flags, and (when built) the quantised coefficient
tables. -/
structure Cfg where
  in_prm : ℕ := 0
  out_prm : ℕ := 0
  in_trc : ℕ := 0
  out_trc : ℕ := 0
  in_csp : ℕ := 0
  out_csp : ℕ := 0
  in_rng : ℕ := 0
  out_rng : ℕ := 0
  lrgb2lrgb_passthrough : Bool := false
  in_txchr : TransferCharacteristics := ⟨0, 0, 0, 0⟩
  out_txchr : Option TransferCharacteristics := none
  out_trc_fn : Bool := false
  rgb2rgb_passthrough : Bool := false
  lin_lut_built : Bool := false
  in_lumacoef : ℚ × ℚ := (0, 0)
  out_lumacoef : ℚ × ℚ := (0, 0)
  yuv2yuv_fastmode : Bool := false
  yuv2yuv_passthrough : Bool := false
  in_depth : ℕ := 0
  out_depth : ℕ := 0
  in_ss_w : ℕ := 0
  in_ss_h : ℕ := 0
  out_ss_w : ℕ := 0
  out_ss_h : ℕ := 0
  yuv2rgb_coeffs : Option (Mat3 ℤ) := none
  rgb2yuv_coeffs : Option (Mat3 ℤ) := none
  yuv2yuv_coeffs : Option (Mat3 ℤ) := none
  yuv_offset_in : Option ℤ := none
  yuv_offset_out : Option ℤ := none
  did_warn_range : Bool := false

/-! ### Tag resolution (create_filtergraph, lines 758-763, 826-830,
882-889) -/

/-- Resolved input primaries: frame tag, then the `iall` preset, then the
`iprimaries` override. -/
def resolve_in_prm (s : Ctx) (f : Frame) : ℕ :=
  let p1 := if s.user_iall ≠ CS_UNSPECIFIED then default_prm (min s.user_iall CS_NB)
            else f.color_primaries
  if s.user_iprm ≠ PRI_UNSPECIFIED then s.user_iprm else p1

/-- Resolved input transfer: frame tag, then the `iall` preset, then the
`itrc` override. -/
def resolve_in_trc (s : Ctx) (f : Frame) : ℕ :=
  let t1 := if s.user_iall ≠ CS_UNSPECIFIED then default_trc (min s.user_iall CS_NB)
            else f.color_trc
  if s.user_itrc ≠ TRC_UNSPECIFIED then s.user_itrc else t1

/-- Resolved input matrix: frame tag, then the `iall` preset, then the
`ispace` override. -/
def resolve_in_csp (s : Ctx) (f : Frame) : ℕ :=
  let c1 := if s.user_iall ≠ CS_UNSPECIFIED then default_csp (min s.user_iall CS_NB)
            else f.colorspace
  if s.user_icsp ≠ SPC_UNSPECIFIED then s.user_icsp else c1

/-- Resolved input range: frame tag unless the `irange` override is set. -/
def resolve_in_rng (s : Ctx) (f : Frame) : ℕ :=
  if s.user_irng ≠ RANGE_UNSPECIFIED then s.user_irng else f.color_range

/-! ### create_filtergraph -/

/-- AVERROR(EINVAL) -/
abbrev EINVAL_ERR : ℤ := -22

/-- The tail of `create_filtergraph` after all lookups succeeded:
passthrough flags (lines 865-866, 923-929) and, on the non-passthrough
non-RGB path, the quantised coefficient tables (lines 930-1016).  A fresh
filter instance is modelled, so both `redo_yuv2rgb` and `redo_rgb2yuv`
hold whenever the block is entered. -/
def create_rest (s : Ctx) (fin fout : Frame) (inP outP : PrimariesDesc)
    (inTC : TransferCharacteristics) (inL outL : ℚ × ℚ) : Except ℤ Cfg :=
  let outTCO := get_transfer_characteristics fout.color_trc
  let outFn := outTCO.isNone
  let lrgb := decide (inP = outP)
  let rgb2rgb := s.fast_mode || (lrgb && !outFn && decide (some inTC = outTCO))
  let linBuilt := !rgb2rgb && (!fin.desc.isFloat || fin.desc.depth == 16)
  let fmtIdentical := fin.desc.log2_chroma_h == fout.desc.log2_chroma_h &&
                      fin.desc.log2_chroma_w == fout.desc.log2_chroma_w
  let fastmode := rgb2rgb && fmtIdentical
  let inRng := resolve_in_rng s fin
  let pass := fastmode && (inRng == fout.color_range) && decide (inL = outL) &&
              (fin.desc.depth == fout.desc.depth)
  let base : Cfg :=
    { in_prm := resolve_in_prm s fin, out_prm := fout.color_primaries,
      in_trc := resolve_in_trc s fin, out_trc := fout.color_trc,
      in_csp := resolve_in_csp s fin, out_csp := fout.colorspace,
      in_rng := inRng, out_rng := fout.color_range,
      lrgb2lrgb_passthrough := lrgb, in_txchr := inTC, out_txchr := outTCO,
      out_trc_fn := outFn, rgb2rgb_passthrough := rgb2rgb,
      lin_lut_built := linBuilt, in_lumacoef := inL, out_lumacoef := outL,
      yuv2yuv_fastmode := fastmode, yuv2yuv_passthrough := pass,
      in_depth := fin.desc.depth, out_depth := fout.desc.depth,
      in_ss_w := fin.desc.log2_chroma_w, in_ss_h := fin.desc.log2_chroma_h,
      out_ss_w := fout.desc.log2_chroma_w, out_ss_h := fout.desc.log2_chroma_h,
      did_warn_range := s.did_warn_range }
  if pass || fin.desc.isRGB then Except.ok base
  else
    match get_range_off s.did_warn_range inRng fin.desc.depth with
    | none => Except.error EINVAL_ERR
    | some ((offIn, iy, iuv), dw1, _) =>
      let yuv2rgbD := ff_matrix_invert_3x3 (ff_fill_rgb2yuv_table inL.1 inL.2)
      let yuv2rgbC := quant_yuv2rgb yuv2rgbD (2 ^ (fin.desc.depth - 1)) iy iuv
      match get_range_off dw1 fout.color_range fout.desc.depth with
      | none => Except.error EINVAL_ERR
      | some ((offOut, oy, ouv), dw2, _) =>
        let rgb2yuvD := ff_fill_rgb2yuv_table outL.1 outL.2
        let rgb2yuvC := quant_rgb2yuv rgb2yuvD (2 ^ (29 - fout.desc.depth)) oy ouv
        let yuv2yuvD := ff_matrix_mul_3x3 yuv2rgbD rgb2yuvD
        Except.ok
          { base with
            yuv2rgb_coeffs := some yuv2rgbC,
            rgb2yuv_coeffs := some rgb2yuvC,
            yuv2yuv_coeffs :=
              if fastmode then
                some (quant_yuv2yuv yuv2yuvD fin.desc.depth fout.desc.depth iy iuv oy ouv)
              else none,
            yuv_offset_in := some offIn, yuv_offset_out := some offOut,
            did_warn_range := dw2 }

/-- Function `create_filtergraph` for a fresh filter instance: format gate,
resolution of the input tags with their table lookups, validation of the
output tags carried by `out`, then `create_rest`. -/
def create_filtergraph (s : Ctx) (fin fout : Frame) : Except ℤ Cfg :=
  if fin.desc.isRGB != fout.desc.isRGB then Except.error EINVAL_ERR
  else if !supported_format fin.desc then Except.error EINVAL_ERR
  else if !supported_format fout.desc then Except.error EINVAL_ERR
  else
    match av_csp_primaries_desc_from_id (resolve_in_prm s fin) with
    | none => Except.error EINVAL_ERR
    | some inP =>
      match av_csp_primaries_desc_from_id fout.color_primaries with
      | none => Except.error EINVAL_ERR
      | some outP =>
        match get_transfer_characteristics (resolve_in_trc s fin) with
        | none => Except.error EINVAL_ERR
        | some inTC =>
          if (get_transfer_characteristics fout.color_trc).isNone &&
             !avpriv_trc_fn_exists fout.color_trc then Except.error EINVAL_ERR
          else
            match av_csp_luma_coeffs_from_avcsp (resolve_in_csp s fin) with
            | none => Except.error EINVAL_ERR
            | some inL =>
              match av_csp_luma_coeffs_from_avcsp fout.colorspace with
              | none => Except.error EINVAL_ERR
              | some outL => create_rest s fin fout inP outP inTC inL outL

/-! ### filter_frame -/

/-- Modelled from the spec: the per-slice pixel kernel set
(libavfilter/colorspacedsp.c, not under src/), abstracted to one function
from the configuration, the dither mode and the input samples to the
output samples. -/
structure Kernels where
  convert : Cfg → ℕ → List ℤ → List ℤ

/-- Output transfer tag selection in `filter_frame` (lines 1086-1094):
the user's `trc` if set, else the `all` preset's default, bumped from
BT2020-10 to BT2020-12 when the output depth is at least 12. -/
def out_trc_sel (s : Ctx) (d : PixFmtDesc) : ℕ :=
  if s.user_trc = TRC_UNSPECIFIED then
    let t := default_trc (min s.user_all CS_NB)
    if t = TRC_BT2020_10 ∧ 12 ≤ d.depth then TRC_BT2020_12 else t
  else s.user_trc

/-- Output pixel format: pinned by the `format` option, otherwise the
negotiated format equals the input's (query_formats). -/
def out_desc_sel (s : Ctx) (f : Frame) : PixFmtDesc :=
  (s.user_format).getD f.desc

/-- The output frame as `filter_frame` stamps it before conversion
(lines 1084-1098): tags from the user options with the preset and input
fallbacks. -/
def mk_out_frame (s : Ctx) (f : Frame) : Frame :=
  { width := f.width, height := f.height, desc := out_desc_sel s f,
    color_primaries := if s.user_prm = PRI_UNSPECIFIED
                       then default_prm (min s.user_all CS_NB) else s.user_prm,
    color_trc := out_trc_sel s (out_desc_sel s f),
    colorspace := if s.user_csp = SPC_UNSPECIFIED
                  then default_csp (min s.user_all CS_NB) else s.user_csp,
    color_range := if s.user_rng = RANGE_UNSPECIFIED
                   then f.color_range else s.user_rng,
    data := [] }

/-- Function `filter_frame`: stamp the output frame's colour tags from the user
options (lines 1084-1098), run `create_filtergraph`, then either copy the
input bytes (`yuv2yuv_passthrough`, lines 1165-1171) or run the
conversion kernels. -/
def filter_frame (K : Kernels) (s : Ctx) (f : Frame) : Except ℤ (Cfg × Frame) :=
  match create_filtergraph s f (mk_out_frame s f) with
  | Except.error e => Except.error e
  | Except.ok cfg =>
    Except.ok (cfg, { mk_out_frame s f with
      data := if cfg.yuv2yuv_passthrough then f.data
              else K.convert cfg s.dither f.data })

/-! ### Slice scheduler (convert, lines 382-384; filter_frame, line 1174) -/

/-- Half height `h_in = (height + 1) >> 1`. -/
def slice_h_in (h : ℕ) : ℕ := (h + 1) / 2

/-- Job count `n_jobs = FFMIN((height + 1) >> 1, nb_threads)`. -/
def slice_n_jobs (h threads : ℕ) : ℕ := min (slice_h_in h) threads

/-- Slice boundary: slice `j` covers luma rows
`[slice_bound h n j, slice_bound h n (j+1))`
(`h1 = 2 * (job_nr * h_in / n_jobs)`, `h2` likewise at `job_nr + 1`). -/
def slice_bound (h n j : ℕ) : ℕ := 2 * (j * slice_h_in h / n)

/-! ### Gamma LUT construction (fill_gamma_table, lines 204-251)

The doubles of the C code are modelled by real numbers; `pow` by `rpow`,
`lrint` by `round`, `av_clip_int16` by a saturating clip. -/

/-- Saturating clip `av_clip_int16`. -/
def av_clip_int16 (x : ℤ) : ℤ := max (-32768) (min 32767 x)

/-- The LUT index `n` maps to the value `v = (n - 2048) / 28672`. -/
noncomputable def lut_v (n : ℕ) : ℝ := ((n : ℝ) - 2048) / 28672

/-- The delinearize branch of `fill_gamma_table` (lines 229-235) with the
output transfer's parameters. -/
noncomputable def delin_parm (tc : TransferCharacteristics) (v : ℝ) : ℝ :=
  if v ≤ -(tc.beta : ℝ) then
    -(tc.alpha : ℝ) * (-v) ^ (tc.gamma : ℝ) + ((tc.alpha : ℝ) - 1)
  else if v < (tc.beta : ℝ) then (tc.delta : ℝ) * v
  else (tc.alpha : ℝ) * v ^ (tc.gamma : ℝ) - ((tc.alpha : ℝ) - 1)

/-- Entry `delin_lut[n]` as computed by `fill_gamma_table` (lines 225-237):
either the external output transfer function, or the parametric
piecewise form with the output transfer's parameters. -/
noncomputable def delin_lut (tc : TransferCharacteristics)
    (trcFn : Option (ℝ → ℝ)) (n : ℕ) : ℤ :=
  av_clip_int16 (round ((match trcFn with
    | some f => f (lut_v n)
    | none => delin_parm tc (lut_v n)) * 28672))

/-- The linearize branch of `fill_gamma_table` (lines 240-246) with the
source transfer's parameters (`in_ialpha = 1/alpha` etc. inlined). -/
noncomputable def lin_parm (tc : TransferCharacteristics) (v : ℝ) : ℝ :=
  if v ≤ -(tc.beta : ℝ) * (tc.delta : ℝ) then
    -((1 - (tc.alpha : ℝ) - v) * (tc.alpha : ℝ)⁻¹) ^ ((tc.gamma : ℝ))⁻¹
  else if v < (tc.beta : ℝ) * (tc.delta : ℝ) then v * ((tc.delta : ℝ))⁻¹
  else ((v + (tc.alpha : ℝ) - 1) * (tc.alpha : ℝ)⁻¹) ^ ((tc.gamma : ℝ))⁻¹

/-- Entry `lin_lut[n]` as computed by `fill_gamma_table` (lines 239-247). -/
noncomputable def lin_lut (tc : TransferCharacteristics) (n : ℕ) : ℤ :=
  av_clip_int16 (round (lin_parm tc (lut_v n) * 28672))

/-- The claimed delinearize function `f_delin`, written as the spec words
it: the external function when in use, otherwise
`-alpha * (-v)^gamma + (alpha - 1)` for `v <= -beta`, `delta * v` for
`|v| < beta`, and `alpha * v^gamma - (alpha - 1)` for `v >= beta`. -/
noncomputable def f_delin_spec (tc : TransferCharacteristics)
    (trcFn : Option (ℝ → ℝ)) (v : ℝ) : ℝ :=
  match trcFn with
  | some f => f v
  | none =>
    if v ≤ -(tc.beta : ℝ) then
      -(tc.alpha : ℝ) * (-v) ^ (tc.gamma : ℝ) + ((tc.alpha : ℝ) - 1)
    else if |v| < (tc.beta : ℝ) then (tc.delta : ℝ) * v
    else (tc.alpha : ℝ) * v ^ (tc.gamma : ℝ) - ((tc.alpha : ℝ) - 1)

/-- The claimed linearize function `f_lin`, written as the spec words it:
the odd reflection of the upper branch below the toe, that is
`-(((-v) + alpha - 1)/alpha)^(1/gamma)` for `v <= -beta*delta`,
`v/delta` for `|v| < beta*delta`, and
`((v + alpha - 1)/alpha)^(1/gamma)` for `v >= beta*delta`. -/
noncomputable def f_lin_spec (tc : TransferCharacteristics) (v : ℝ) : ℝ :=
  if v ≤ -((tc.beta : ℝ) * (tc.delta : ℝ)) then
    -((-v + (tc.alpha : ℝ) - 1) / (tc.alpha : ℝ)) ^ ((tc.gamma : ℝ))⁻¹
  else if |v| < (tc.beta : ℝ) * (tc.delta : ℝ) then v / (tc.delta : ℝ)
  else ((v + (tc.alpha : ℝ) - 1) / (tc.alpha : ℝ)) ^ ((tc.gamma : ℝ))⁻¹

/-- The linearize function actually implemented by `fill_gamma_table`:
identical to `f_lin_spec` except on the branch below the toe, where the
code computes `-((1 - alpha - v)/alpha)^(1/gamma)`. -/
noncomputable def f_lin_code (tc : TransferCharacteristics) (v : ℝ) : ℝ :=
  if v ≤ -((tc.beta : ℝ) * (tc.delta : ℝ)) then
    -((1 - (tc.alpha : ℝ) - v) / (tc.alpha : ℝ)) ^ ((tc.gamma : ℝ))⁻¹
  else if |v| < (tc.beta : ℝ) * (tc.delta : ℝ) then v / (tc.delta : ℝ)
  else ((v + (tc.alpha : ℝ) - 1) / (tc.alpha : ℝ)) ^ ((tc.gamma : ℝ))⁻¹

/-! ## Theorems -/

/-- C7: for depths 8, 10, 12, `get_range_off` with range `unspecified`
succeeds with the limited-range values `off = 16*2^(d-8)`,
`y_rng = 219*2^(d-8)`, `uv_rng = 224*2^(d-8)` (identical to range
`limited`), warning exactly when the one-shot flag is still clear and
setting the flag (so at most one message per filter instance); with range
`full` it returns `off = 0` and `y_rng = uv_rng = 256*2^(d-8) - 1`; any
other range value yields an error with no outputs written. -/
theorem get_range_off_spec (dw : Bool) (d : ℕ) (hd : d = 8 ∨ d = 10 ∨ d = 12) :
    get_range_off dw RANGE_UNSPECIFIED d =
      some ((16 * 2 ^ (d - 8), 219 * 2 ^ (d - 8), 224 * 2 ^ (d - 8)), true, !dw)
  ∧ (get_range_off dw RANGE_UNSPECIFIED d).map Prod.fst =
      (get_range_off dw RANGE_MPEG d).map Prod.fst
  ∧ (get_range_off true RANGE_UNSPECIFIED d).map (fun t => t.2.2) = some false
  ∧ get_range_off dw RANGE_JPEG d =
      some ((0, 256 * 2 ^ (d - 8) - 1, 256 * 2 ^ (d - 8) - 1), dw, false)
  ∧ ∀ r, RANGE_JPEG < r → get_range_off dw r d = none := by
  refine ⟨rfl, rfl, rfl, rfl, ?_⟩
  intro r hr
  unfold get_range_off RANGE_UNSPECIFIED RANGE_MPEG RANGE_JPEG at *
  rw [if_neg (by omega), if_neg (by omega), if_neg (by omega)]

theorem get_range_off_spec_witness :
    (get_range_off false RANGE_UNSPECIFIED 10 =
      some ((16 * 2 ^ 2, 219 * 2 ^ 2, 224 * 2 ^ 2), true, true))
  ∧ get_range_off false 5 10 = none := by
  have h := get_range_off_spec false 10 (by decide)
  exact ⟨h.1, h.2.2.2.2 5 (by decide)⟩

/-- Slice boundaries are monotone in the job number. -/
theorem slice_bound_mono (h n : ℕ) {i j : ℕ} (hij : i ≤ j) :
    slice_bound h n i ≤ slice_bound h n j :=
  Nat.mul_le_mul_left 2 (Nat.div_le_div_right (Nat.mul_le_mul_right _ hij))

/-- For even `h` and at least one job, the last slice boundary is `h`. -/
theorem slice_bound_last (h threads : ℕ) (ht : 1 ≤ threads) (hev : 2 ∣ h) :
    slice_bound h (slice_n_jobs h threads) (slice_n_jobs h threads) = h := by
  rcases Nat.eq_zero_or_pos h with h0 | hpos
  · subst h0
    simp [slice_n_jobs, slice_h_in, slice_bound]
  · have hn : 0 < slice_n_jobs h threads := by
      unfold slice_n_jobs slice_h_in; omega
    unfold slice_bound
    rw [Nat.mul_div_cancel_left _ hn]
    unfold slice_h_in
    omega

/-- C8: the frame is dispatched over `min((h+1)/2, worker_count)` slices;
slice `j` covers luma rows `[2*(j*h_in/n), 2*((j+1)*h_in/n))` with
`h_in = (h+1)/2`; every boundary is even, every slice covers an even
number of rows, distinct slices are disjoint, and for even heights the
slices exactly cover `[0, h)`. -/
theorem slice_partition (h threads : ℕ) (ht : 1 ≤ threads) :
    slice_n_jobs h threads = min ((h + 1) / 2) threads
  ∧ (∀ j, 2 ∣ slice_bound h (slice_n_jobs h threads) j)
  ∧ (∀ j, 2 ∣ (slice_bound h (slice_n_jobs h threads) (j + 1) -
               slice_bound h (slice_n_jobs h threads) j))
  ∧ (∀ i j r, i < j →
      slice_bound h (slice_n_jobs h threads) i ≤ r →
      r < slice_bound h (slice_n_jobs h threads) (i + 1) →
      ¬(slice_bound h (slice_n_jobs h threads) j ≤ r ∧
        r < slice_bound h (slice_n_jobs h threads) (j + 1)))
  ∧ (2 ∣ h → ∀ r, r < h ↔ ∃ j, j < slice_n_jobs h threads ∧
      slice_bound h (slice_n_jobs h threads) j ≤ r ∧
      r < slice_bound h (slice_n_jobs h threads) (j + 1)) := by
  refine ⟨rfl, fun j => ⟨_, rfl⟩, ?_, ?_, ?_⟩
  · intro j
    have hm := slice_bound_mono h (slice_n_jobs h threads) (Nat.le_succ j)
    unfold slice_bound at hm ⊢
    exact ⟨(j + 1) * slice_h_in h / slice_n_jobs h threads -
           j * slice_h_in h / slice_n_jobs h threads, by omega⟩
  · intro i j r hij h1 h2 hcon
    have hle : slice_bound h (slice_n_jobs h threads) (i + 1) ≤
        slice_bound h (slice_n_jobs h threads) j :=
      slice_bound_mono h _ hij
    omega
  · intro hev r
    have hlast := slice_bound_last h threads ht hev
    constructor
    · intro hr
      by_contra hno
      push_neg at hno
      have key : ∀ j, j ≤ slice_n_jobs h threads →
          slice_bound h (slice_n_jobs h threads) j ≤ r := by
        intro j
        induction j with
        | zero => intro _; simp [slice_bound]
        | succ k ih =>
          intro hk
          have hk' : k < slice_n_jobs h threads := hk
          exact hno k hk' (ih (Nat.le_of_lt hk'))
      have := key _ le_rfl
      omega
    · rintro ⟨j, hj, _, hr2⟩
      have : slice_bound h (slice_n_jobs h threads) (j + 1) ≤
          slice_bound h (slice_n_jobs h threads) (slice_n_jobs h threads) :=
        slice_bound_mono h _ hj
      omega

theorem slice_partition_witness :
    slice_n_jobs 6 2 = min ((6 + 1) / 2) 2
  ∧ 2 ∣ slice_bound 6 (slice_n_jobs 6 2) 1
  ∧ (4 < 6 ↔ ∃ j, j < slice_n_jobs 6 2 ∧
      slice_bound 6 (slice_n_jobs 6 2) j ≤ 4 ∧
      4 < slice_bound 6 (slice_n_jobs 6 2) (j + 1)) := by
  have h := slice_partition 6 2 (by decide)
  exact ⟨h.1, h.2.1 1, h.2.2.2.2 (by decide) 4⟩

/-- The delinearize branch structure of the code coincides with the
spec's `f_delin` written with an absolute value in the toe condition. -/
theorem delin_parm_eq_spec (tc : TransferCharacteristics) (v : ℝ) :
    delin_parm tc v = f_delin_spec tc none v := by
  unfold delin_parm f_delin_spec
  split_ifs with h1 h2 h3 h3
  · rfl
  · rfl
  · exact absurd (abs_lt.mpr ⟨by push_neg at h1; linarith, h2⟩) h3
  · exact absurd (abs_lt.mp h3).2 h2
  · rfl

/-- C5: for every index `n < 32768`, with `v = (n - 2048)/28672`,
`fill_gamma_table` sets
`delin_lut[n] = clip_int16(round(28672 * f_delin(v)))` where `f_delin`
is the external output transfer function when in use and the parametric
piecewise form otherwise. -/
theorem delin_lut_spec (tc : TransferCharacteristics) (trcFn : Option (ℝ → ℝ))
    (n : ℕ) (hn : n < 32768) :
    delin_lut tc trcFn n =
      av_clip_int16 (round (28672 * f_delin_spec tc trcFn (lut_v n))) := by
  unfold delin_lut
  cases trcFn with
  | none => rw [delin_parm_eq_spec, mul_comm]
  | some f => rw [mul_comm]; rfl

theorem delin_lut_spec_witness :
    delin_lut (transfer_characteristics 1) none 0 =
      av_clip_int16 (round (28672 * f_delin_spec (transfer_characteristics 1)
        none (lut_v 0))) :=
  delin_lut_spec (transfer_characteristics 1) none 0 (by decide)

/-- The linearize branch structure of the code coincides with
`f_lin_code` (which differs from the claimed `f_lin_spec` on the branch
below the toe). -/
theorem lin_parm_eq_code (tc : TransferCharacteristics) (v : ℝ) :
    lin_parm tc v = f_lin_code tc v := by
  unfold lin_parm f_lin_code
  simp only [div_eq_mul_inv, neg_mul]
  split_ifs with h1 h2 h3 h3
  · rfl
  · rfl
  · exact absurd (abs_lt.mpr ⟨by push_neg at h1; linarith, h2⟩) h3
  · exact absurd (abs_lt.mp h3).2 h2
  · rfl

/-- C6 (amended): for every index `n < 32768`, with
`v = (n - 2048)/28672`,
`lin_lut[n] = clip_int16(round(28672 * f_lin(v)))` where `f_lin` is
`((v + alpha - 1)/alpha)^(1/gamma)` for `v >= beta*delta`, `v/delta` on
the toe `|v| < beta*delta`, and `-((1 - alpha - v)/alpha)^(1/gamma)` for
`v <= -beta*delta` — not the odd reflection of the upper branch. -/
theorem lin_lut_code_spec (tc : TransferCharacteristics) (n : ℕ)
    (hn : n < 32768) :
    lin_lut tc n = av_clip_int16 (round (28672 * f_lin_code tc (lut_v n))) := by
  unfold lin_lut
  rw [lin_parm_eq_code, mul_comm]

theorem lin_lut_code_spec_witness :
    lin_lut (transfer_characteristics 1) 0 =
      av_clip_int16 (round (28672 * f_lin_code (transfer_characteristics 1)
        (lut_v 0))) :=
  lin_lut_code_spec (transfer_characteristics 1) 0 (by decide)

/-- C6 (counterexample): with the sRGB source transfer
(`alpha = 1.055 != 1`) and index `n = 0` (`v = -1/14`, below the toe),
the code's `lin_lut[0]` is about `-1` while the claimed reflected inverse
`-(((-v) + alpha - 1)/alpha)^(1/gamma)` rounds to about `-176`: the
claimed equation is false at this input. -/
theorem lin_lut_reflect_counterexample :
    lin_lut (transfer_characteristics 13) 0 ≠
      av_clip_int16 (round (28672 * f_lin_spec (transfer_characteristics 13)
        (lut_v 0))) := by
  have hv : lut_v 0 = -(1/14 : ℝ) := by unfold lut_v; norm_num
  set x : ℝ := ((23:ℝ)/1477) ^ ((12:ℝ)/5) with hxdef
  set y : ℝ := ((177:ℝ)/1477) ^ ((12:ℝ)/5) with hydef
  have hA : lin_parm (transfer_characteristics 13) (lut_v 0) = -x := by
    rw [hv]
    unfold lin_parm
    rw [if_pos (by
      show (-(1/14 : ℝ)) ≤ -((q 7827 2500000 : ℚ) : ℝ) * ((q 323 25 : ℚ) : ℝ)
      rw [q_eq_div, q_eq_div]
      push_cast
      norm_num)]
    have hb : (1 - ((transfer_characteristics 13).alpha : ℝ) - (-(1/14))) *
        ((transfer_characteristics 13).alpha : ℝ)⁻¹ = 23/1477 := by
      show (1 - ((q 211 200 : ℚ) : ℝ) - (-(1/14))) * ((q 211 200 : ℚ) : ℝ)⁻¹ = 23/1477
      rw [q_eq_div]
      push_cast
      norm_num
    have hg : ((((transfer_characteristics 13).gamma : ℚ) : ℝ))⁻¹ = 12/5 := by
      show (((q 5 12 : ℚ) : ℝ))⁻¹ = 12/5
      rw [q_eq_div]
      push_cast
      norm_num
    rw [hb, hg]
  have hB : f_lin_spec (transfer_characteristics 13) (lut_v 0) = -y := by
    rw [hv]
    unfold f_lin_spec
    rw [if_pos (by
      show (-(1/14 : ℝ)) ≤ -(((q 7827 2500000 : ℚ) : ℝ) * ((q 323 25 : ℚ) : ℝ))
      rw [q_eq_div, q_eq_div]
      push_cast
      norm_num)]
    have hb : (-(-(1/14)) + ((transfer_characteristics 13).alpha : ℝ) - 1) /
        ((transfer_characteristics 13).alpha : ℝ) = 177/1477 := by
      show (-(-(1/14 : ℝ)) + ((q 211 200 : ℚ) : ℝ) - 1) / ((q 211 200 : ℚ) : ℝ) = 177/1477
      rw [q_eq_div]
      push_cast
      norm_num
    have hg : ((((transfer_characteristics 13).gamma : ℚ) : ℝ))⁻¹ = 12/5 := by
      show (((q 5 12 : ℚ) : ℝ))⁻¹ = 12/5
      rw [q_eq_div]
      push_cast
      norm_num
    rw [hb, hg]
  have hy0 : 0 ≤ y := Real.rpow_nonneg (by norm_num) _
  have hxpow : x ^ (5:ℕ) = ((23:ℝ)/1477) ^ (12:ℕ) := by
    rw [hxdef, ← Real.rpow_natCast (((23:ℝ)/1477) ^ ((12:ℝ)/5)) 5,
        ← Real.rpow_mul (by norm_num : (0:ℝ) ≤ 23/1477),
        show ((12:ℝ)/5 * ((5:ℕ):ℝ)) = ((12:ℕ):ℝ) by norm_num,
        Real.rpow_natCast]
  have hypow : y ^ (5:ℕ) = ((177:ℝ)/1477) ^ (12:ℕ) := by
    rw [hydef, ← Real.rpow_natCast (((177:ℝ)/1477) ^ ((12:ℝ)/5)) 5,
        ← Real.rpow_mul (by norm_num : (0:ℝ) ≤ 177/1477),
        show ((12:ℝ)/5 * ((5:ℕ):ℝ)) = ((12:ℕ):ℝ) by norm_num,
        Real.rpow_natCast]
  have hxle : x ≤ 5/57344 := by
    apply le_of_pow_le_pow_left₀ (by norm_num : (5:ℕ) ≠ 0)
      (by norm_num : (0:ℝ) ≤ 5/57344)
    rw [hxpow, div_pow, div_pow, div_le_div_iff₀ (by positivity) (by positivity)]
    norm_num
  have hyge : (199:ℝ)/57344 ≤ y := by
    apply le_of_pow_le_pow_left₀ (by norm_num : (5:ℕ) ≠ 0) hy0
    rw [hypow, div_pow, div_pow, div_le_div_iff₀ (by positivity) (by positivity)]
    norm_num
  have hclip1 : ∀ z : ℤ, -2 ≤ z → -2 ≤ av_clip_int16 z := by
    intro z hz; unfold av_clip_int16; omega
  have hclip2 : ∀ z : ℤ, z ≤ -99 → av_clip_int16 z ≤ -99 := by
    intro z hz; unfold av_clip_int16; omega
  have hr1 : (-2 : ℤ) ≤ round (-x * 28672) := by
    rw [round_eq, Int.le_floor]
    push_cast
    nlinarith [hxle]
  have hr2 : round (28672 * -y) ≤ -99 := by
    rw [round_eq]
    have h2 : 28672 * -y + 1/2 ≤ ((-99 : ℤ) : ℝ) := by push_cast; nlinarith [hyge]
    calc ⌊28672 * -y + 1/2⌋ ≤ ⌊((-99 : ℤ) : ℝ)⌋ := Int.floor_mono h2
    _ = -99 := Int.floor_intCast _
  have hL : lin_lut (transfer_characteristics 13) 0 =
      av_clip_int16 (round (-x * 28672)) := by
    unfold lin_lut
    rw [hA]
  have hR : av_clip_int16 (round (28672 * f_lin_spec (transfer_characteristics 13)
      (lut_v 0))) = av_clip_int16 (round (28672 * -y)) := by
    rw [hB]
  rw [hL, hR]
  have g1 := hclip1 _ hr1
  have g2 := hclip2 _ hr2
  omega

/-- C3: after a successful `create_filtergraph`, `yuv2yuv_fastmode` holds
iff `rgb2rgb_passthrough` holds and input/output chroma subsampling match
in both dimensions; and `yuv2yuv_passthrough` holds iff
`yuv2yuv_fastmode` holds, the resolved ranges are equal, the luma
coefficients (Kr, Kb) are identical and the bit depths are equal. -/
theorem yuv2yuv_flags_iff (s : Ctx) (fin fout : Frame) (cfg : Cfg)
    (h : create_filtergraph s fin fout = Except.ok cfg) :
    (cfg.yuv2yuv_fastmode = true ↔
      cfg.rgb2rgb_passthrough = true ∧ cfg.in_ss_w = cfg.out_ss_w ∧
      cfg.in_ss_h = cfg.out_ss_h)
  ∧ (cfg.yuv2yuv_passthrough = true ↔
      cfg.yuv2yuv_fastmode = true ∧ cfg.in_rng = cfg.out_rng ∧
      cfg.in_lumacoef = cfg.out_lumacoef ∧ cfg.in_depth = cfg.out_depth) := by
  unfold create_filtergraph at h
  split at h
  · exact Except.noConfusion h
  split at h
  · exact Except.noConfusion h
  split at h
  · exact Except.noConfusion h
  split at h
  · exact Except.noConfusion h
  split at h
  · exact Except.noConfusion h
  split at h
  · exact Except.noConfusion h
  split at h
  · exact Except.noConfusion h
  split at h
  · exact Except.noConfusion h
  split at h
  · exact Except.noConfusion h
  simp only [create_rest] at h
  split at h
  · rw [Except.ok.injEq] at h
    subst h
    simp only [Bool.and_eq_true, beq_iff_eq, decide_eq_true_eq]
    tauto
  · split at h
    · exact Except.noConfusion h
    split at h
    · exact Except.noConfusion h
    rw [Except.ok.injEq] at h
    subst h
    simp only [Bool.and_eq_true, beq_iff_eq, decide_eq_true_eq]
    tauto

/-- Extract the configuration of a successful run (defaulted otherwise). -/
def getCfg (e : Except ℤ Cfg) : Cfg :=
  match e with
  | Except.ok c => c
  | Except.error _ => {}

/-- 8-bit 4:2:0 YUV pixel format descriptor. -/
def yuv420p8 : PixFmtDesc := ⟨3, 8, 1, 1, false, false⟩

/-- 12-bit 4:4:4 YUV pixel format descriptor. -/
def yuv444p12 : PixFmtDesc := ⟨3, 12, 0, 0, false, false⟩

/-- A BT.709-tagged limited-range 4:2:0 frame. -/
def frame709 : Frame := ⟨64, 64, yuv420p8, 1, 1, 1, 1, [7, 8, 9]⟩

/-- The same tags with empty payload (an output frame). -/
def frame709out : Frame := ⟨64, 64, yuv420p8, 1, 1, 1, 1, []⟩

theorem yuv2yuv_flags_iff_witness :
    ((getCfg (create_filtergraph {} frame709 frame709out)).yuv2yuv_fastmode = true ↔
      (getCfg (create_filtergraph {} frame709 frame709out)).rgb2rgb_passthrough = true ∧
      (getCfg (create_filtergraph {} frame709 frame709out)).in_ss_w =
        (getCfg (create_filtergraph {} frame709 frame709out)).out_ss_w ∧
      (getCfg (create_filtergraph {} frame709 frame709out)).in_ss_h =
        (getCfg (create_filtergraph {} frame709 frame709out)).out_ss_h)
  ∧ ((getCfg (create_filtergraph {} frame709 frame709out)).yuv2yuv_passthrough = true ↔
      (getCfg (create_filtergraph {} frame709 frame709out)).yuv2yuv_fastmode = true ∧
      (getCfg (create_filtergraph {} frame709 frame709out)).in_rng =
        (getCfg (create_filtergraph {} frame709 frame709out)).out_rng ∧
      (getCfg (create_filtergraph {} frame709 frame709out)).in_lumacoef =
        (getCfg (create_filtergraph {} frame709 frame709out)).out_lumacoef ∧
      (getCfg (create_filtergraph {} frame709 frame709out)).in_depth =
        (getCfg (create_filtergraph {} frame709 frame709out)).out_depth) :=
  yuv2yuv_flags_iff {} frame709 frame709out _ (by rfl)

/-- C4: after a successful `create_filtergraph`, `rgb2rgb_passthrough`
holds iff the user set the `fast` option, or `lrgb2lrgb_passthrough`
holds, the output transfer is parametric (no external transfer function
in use) and the input transfer parameters equal the output's. -/
theorem rgb2rgb_passthrough_iff (s : Ctx) (fin fout : Frame) (cfg : Cfg)
    (h : create_filtergraph s fin fout = Except.ok cfg) :
    cfg.rgb2rgb_passthrough = true ↔
      s.fast_mode = true ∨
      (cfg.lrgb2lrgb_passthrough = true ∧ cfg.out_trc_fn = false ∧
       cfg.out_txchr = some cfg.in_txchr) := by
  unfold create_filtergraph at h
  split at h
  · exact Except.noConfusion h
  split at h
  · exact Except.noConfusion h
  split at h
  · exact Except.noConfusion h
  split at h
  · exact Except.noConfusion h
  split at h
  · exact Except.noConfusion h
  split at h
  · exact Except.noConfusion h
  split at h
  · exact Except.noConfusion h
  split at h
  · exact Except.noConfusion h
  split at h
  · exact Except.noConfusion h
  simp only [create_rest] at h
  split at h
  · rw [Except.ok.injEq] at h
    subst h
    simp only [Bool.or_eq_true, Bool.and_eq_true, Bool.not_eq_true',
      decide_eq_true_eq]
    constructor
    · rintro (hf | ⟨⟨hl, hn⟩, he⟩)
      · exact Or.inl hf
      · exact Or.inr ⟨hl, hn, he.symm⟩
    · rintro (hf | ⟨hl, hn, he⟩)
      · exact Or.inl hf
      · exact Or.inr ⟨⟨hl, hn⟩, he.symm⟩
  · split at h
    · exact Except.noConfusion h
    split at h
    · exact Except.noConfusion h
    rw [Except.ok.injEq] at h
    subst h
    simp only [Bool.or_eq_true, Bool.and_eq_true, Bool.not_eq_true',
      decide_eq_true_eq]
    constructor
    · rintro (hf | ⟨⟨hl, hn⟩, he⟩)
      · exact Or.inl hf
      · exact Or.inr ⟨hl, hn, he.symm⟩
    · rintro (hf | ⟨hl, hn, he⟩)
      · exact Or.inl hf
      · exact Or.inr ⟨⟨hl, hn⟩, he.symm⟩

theorem rgb2rgb_passthrough_iff_witness :
    (getCfg (create_filtergraph {} frame709 frame709out)).rgb2rgb_passthrough = true ↔
      ({} : Ctx).fast_mode = true ∨
      ((getCfg (create_filtergraph {} frame709 frame709out)).lrgb2lrgb_passthrough = true ∧
       (getCfg (create_filtergraph {} frame709 frame709out)).out_trc_fn = false ∧
       (getCfg (create_filtergraph {} frame709 frame709out)).out_txchr =
         some (getCfg (create_filtergraph {} frame709 frame709out)).in_txchr) :=
  rgb2rgb_passthrough_iff {} frame709 frame709out _ (by rfl)

/-- If every resolved tag, the chroma subsampling and the depth agree,
a successful `create_filtergraph` sets `yuv2yuv_passthrough`. -/
theorem create_passthrough_of_tags (s : Ctx) (fin fout : Frame) (cfg : Cfg)
    (h : create_filtergraph s fin fout = Except.ok cfg)
    (hprm : cfg.in_prm = cfg.out_prm) (htrc : cfg.in_trc = cfg.out_trc)
    (hcsp : cfg.in_csp = cfg.out_csp) (hrng : cfg.in_rng = cfg.out_rng)
    (hssw : cfg.in_ss_w = cfg.out_ss_w) (hssh : cfg.in_ss_h = cfg.out_ss_h)
    (hdepth : cfg.in_depth = cfg.out_depth) :
    cfg.yuv2yuv_passthrough = true := by
  unfold create_filtergraph at h
  split at h
  · exact Except.noConfusion h
  split at h
  · exact Except.noConfusion h
  split at h
  · exact Except.noConfusion h
  split at h
  · exact Except.noConfusion h
  rename_i inP hinP
  split at h
  · exact Except.noConfusion h
  rename_i outP houtP
  split at h
  · exact Except.noConfusion h
  rename_i inTC hinTC
  split at h
  · exact Except.noConfusion h
  split at h
  · exact Except.noConfusion h
  rename_i inL hinL
  split at h
  · exact Except.noConfusion h
  rename_i outL houtL
  simp only [create_rest] at h
  split at h
  · rw [Except.ok.injEq] at h
    subst h
    dsimp only at hprm htrc hcsp hrng hssw hssh hdepth ⊢
    rw [hprm] at hinP
    have hPP : inP = outP := Option.some.inj (hinP.symm.trans houtP)
    rw [htrc] at hinTC
    rw [hcsp] at hinL
    have hLL : inL = outL := Option.some.inj (hinL.symm.trans houtL)
    subst hPP
    subst hLL
    rw [hinTC]
    simp [hrng, hssw, hssh, hdepth]
  · split at h
    · exact Except.noConfusion h
    split at h
    · exact Except.noConfusion h
    rw [Except.ok.injEq] at h
    subst h
    dsimp only at hprm htrc hcsp hrng hssw hssh hdepth ⊢
    rw [hprm] at hinP
    have hPP : inP = outP := Option.some.inj (hinP.symm.trans houtP)
    rw [htrc] at hinTC
    rw [hcsp] at hinL
    have hLL : inL = outL := Option.some.inj (hinL.symm.trans houtL)
    subst hPP
    subst hLL
    rw [hinTC]
    simp [hrng, hssw, hssh, hdepth]

/-- Kernels that leave the payload untouched (a concrete instance for
witnesses). -/
def idKernels : Kernels := ⟨fun _ _ d => d⟩

/-- Extract the payload of a successful `filter_frame` run. -/
def getOk (e : Except ℤ (Cfg × Frame)) : Cfg × Frame :=
  match e with
  | Except.ok p => p
  | Except.error _ => ({}, ⟨0, 0, ⟨0, 0, 0, 0, false, false⟩, 0, 0, 0, 0, []⟩)

/-- C1: when the resolved source and target tags (primaries, transfer,
matrix, range), the chroma subsampling and the component depth all agree
and dither is `none`, `filter_frame` sets `yuv2yuv_passthrough` and the
output frame's pixel bytes equal the input frame's. -/
theorem passthrough_copies_input (K : Kernels) (s : Ctx) (f : Frame)
    (cfg : Cfg) (out : Frame)
    (h : filter_frame K s f = Except.ok (cfg, out))
    (hprm : cfg.in_prm = cfg.out_prm) (htrc : cfg.in_trc = cfg.out_trc)
    (hcsp : cfg.in_csp = cfg.out_csp) (hrng : cfg.in_rng = cfg.out_rng)
    (hssw : cfg.in_ss_w = cfg.out_ss_w) (hssh : cfg.in_ss_h = cfg.out_ss_h)
    (hdepth : cfg.in_depth = cfg.out_depth) (hdither : s.dither = 0) :
    cfg.yuv2yuv_passthrough = true ∧ out.data = f.data := by
  unfold filter_frame at h
  split at h
  · exact Except.noConfusion h
  rename_i cfg' hcf
  rw [Except.ok.injEq, Prod.mk.injEq] at h
  obtain ⟨hc, ho⟩ := h
  subst hc
  have hp := create_passthrough_of_tags s f _ _ hcf hprm htrc hcsp hrng hssw hssh hdepth
  refine ⟨hp, ?_⟩
  rw [← ho]
  simp [hp]

theorem passthrough_copies_input_witness :
    (getOk (filter_frame idKernels { user_all := 5 } frame709)).1.yuv2yuv_passthrough = true ∧
    (getOk (filter_frame idKernels { user_all := 5 } frame709)).2.data = frame709.data :=
  passthrough_copies_input idKernels { user_all := 5 } frame709
    (getOk (filter_frame idKernels { user_all := 5 } frame709)).1
    (getOk (filter_frame idKernels { user_all := 5 } frame709)).2
    (by rfl) (by rfl) (by rfl) (by rfl) (by rfl) (by rfl) (by rfl) (by rfl) rfl

/-- C9: when `yuv2yuv_passthrough` holds, `filter_frame`'s output does not
depend on the dither option: two runs over the same input whose
configurations differ only in dither (`none` versus `fsb`) produce
byte-identical output, for any conversion kernels whatsoever, because the
direct copy is taken before any dithering branch. -/
theorem passthrough_output_dither_independent (K : Kernels) (s : Ctx) (f : Frame)
    (cfg1 cfg2 : Cfg) (o1 o2 : Frame)
    (h1 : filter_frame K { s with dither := 0 } f = Except.ok (cfg1, o1))
    (h2 : filter_frame K { s with dither := 1 } f = Except.ok (cfg2, o2))
    (hp : cfg1.yuv2yuv_passthrough = true) :
    o1.data = f.data ∧ o2.data = f.data ∧ o1.data = o2.data := by
  have hcf : create_filtergraph { s with dither := 1 } f
        (mk_out_frame { s with dither := 1 } f) =
      create_filtergraph { s with dither := 0 } f
        (mk_out_frame { s with dither := 0 } f) := rfl
  unfold filter_frame at h1 h2
  rw [hcf] at h2
  split at h1
  · exact Except.noConfusion h1
  rename_i cfg' hc1
  rw [hc1] at h2
  rw [Except.ok.injEq, Prod.mk.injEq] at h1 h2
  obtain ⟨hca, hoa⟩ := h1
  obtain ⟨hcb, hob⟩ := h2
  subst hca
  subst hcb
  rw [← hoa, ← hob]
  simp [hp]

theorem passthrough_output_dither_independent_witness :
    (getOk (filter_frame idKernels { user_all := 5, dither := 0 } frame709)).2.data =
      frame709.data ∧
    (getOk (filter_frame idKernels { user_all := 5, dither := 1 } frame709)).2.data =
      frame709.data ∧
    (getOk (filter_frame idKernels { user_all := 5, dither := 0 } frame709)).2.data =
      (getOk (filter_frame idKernels { user_all := 5, dither := 1 } frame709)).2.data :=
  passthrough_output_dither_independent idKernels { user_all := 5 } frame709
    (getOk (filter_frame idKernels { user_all := 5, dither := 0 } frame709)).1
    (getOk (filter_frame idKernels { user_all := 5, dither := 1 } frame709)).1
    (getOk (filter_frame idKernels { user_all := 5, dither := 0 } frame709)).2
    (getOk (filter_frame idKernels { user_all := 5, dither := 1 } frame709)).2
    (by rfl) (by rfl) (by rfl)

/-- C10: when the user did not set `trc`, the output frame's transfer is
the `all` preset's default, bumped from BT2020-10 to BT2020-12 when the
output pixel format's depth is at least 12; when the user did set `trc`,
that value is used unchanged. -/
theorem out_trc_selection (K : Kernels) (s : Ctx) (f : Frame)
    (cfg : Cfg) (out : Frame)
    (h : filter_frame K s f = Except.ok (cfg, out)) :
    (s.user_trc ≠ TRC_UNSPECIFIED → out.color_trc = s.user_trc)
  ∧ (s.user_trc = TRC_UNSPECIFIED →
      ((default_trc (min s.user_all CS_NB) = TRC_BT2020_10 ∧
        12 ≤ (out_desc_sel s f).depth) →
        out.color_trc = TRC_BT2020_12)
    ∧ (¬(default_trc (min s.user_all CS_NB) = TRC_BT2020_10 ∧
         12 ≤ (out_desc_sel s f).depth) →
        out.color_trc = default_trc (min s.user_all CS_NB))) := by
  have hout : out.color_trc = out_trc_sel s (out_desc_sel s f) := by
    unfold filter_frame at h
    split at h
    · exact Except.noConfusion h
    rw [Except.ok.injEq, Prod.mk.injEq] at h
    rw [← h.2]
    rfl
  rw [hout]
  unfold out_trc_sel
  constructor
  · intro hne
    rw [if_neg hne]
  · intro he
    rw [if_pos he]
    constructor
    · intro hb
      rw [if_pos hb]
    · intro hb
      rw [if_neg hb]

/-- A BT.2020-tagged 12-bit 4:4:4 frame. -/
def frame2020 : Frame := ⟨64, 64, yuv444p12, 9, 15, 9, 1, [5]⟩

theorem out_trc_selection_witness :
    (getOk (filter_frame idKernels { user_all := 8 } frame2020)).2.color_trc =
      TRC_BT2020_12 :=
  ((out_trc_selection idKernels { user_all := 8 } frame2020
      (getOk (filter_frame idKernels { user_all := 8 } frame2020)).1
      (getOk (filter_frame idKernels { user_all := 8 } frame2020)).2
      (by rfl)).2 rfl).1 (by exact ⟨rfl, by decide⟩)

/-- The inverse of the RGB to YUV matrix has a zero at row 0, column 1
(the R row takes no U contribution). -/
theorem inv_01 (kr kb : ℚ) :
    ff_matrix_invert_3x3 (ff_fill_rgb2yuv_table kr kb) 0 1 = 0 := by
  show (ff_fill_rgb2yuv_table kr kb 0 2 * ff_fill_rgb2yuv_table kr kb 2 1 -
        ff_fill_rgb2yuv_table kr kb 0 1 * ff_fill_rgb2yuv_table kr kb 2 2) /
       det3 (ff_fill_rgb2yuv_table kr kb) = 0
  rw [div_eq_zero_iff]
  left
  simp only [ff_fill_rgb2yuv_table]
  ring

theorem inv_22 (kr kb : ℚ) :
    ff_matrix_invert_3x3 (ff_fill_rgb2yuv_table kr kb) 2 2 = 0 := by
  show (ff_fill_rgb2yuv_table kr kb 0 0 * ff_fill_rgb2yuv_table kr kb 1 1 -
        ff_fill_rgb2yuv_table kr kb 0 1 * ff_fill_rgb2yuv_table kr kb 1 0) /
       det3 (ff_fill_rgb2yuv_table kr kb) = 0
  rw [div_eq_zero_iff]
  left
  simp only [ff_fill_rgb2yuv_table]
  ring

theorem inv_col0 (kr kb : ℚ) (hkr : kr ≠ 1) (hkb : kb ≠ 1) :
    ff_matrix_invert_3x3 (ff_fill_rgb2yuv_table kr kb) 0 0 =
      ff_matrix_invert_3x3 (ff_fill_rgb2yuv_table kr kb) 1 0 ∧
    ff_matrix_invert_3x3 (ff_fill_rgb2yuv_table kr kb) 0 0 =
      ff_matrix_invert_3x3 (ff_fill_rgb2yuv_table kr kb) 2 0 := by
  have h1 : (1:ℚ) - kb ≠ 0 := sub_ne_zero.mpr (Ne.symm hkb)
  have h2 : (1:ℚ) - kr ≠ 0 := sub_ne_zero.mpr (Ne.symm hkr)
  constructor
  · show (ff_fill_rgb2yuv_table kr kb 1 1 * ff_fill_rgb2yuv_table kr kb 2 2 -
          ff_fill_rgb2yuv_table kr kb 1 2 * ff_fill_rgb2yuv_table kr kb 2 1) /
         det3 (ff_fill_rgb2yuv_table kr kb) =
        (ff_fill_rgb2yuv_table kr kb 1 2 * ff_fill_rgb2yuv_table kr kb 2 0 -
          ff_fill_rgb2yuv_table kr kb 1 0 * ff_fill_rgb2yuv_table kr kb 2 2) /
         det3 (ff_fill_rgb2yuv_table kr kb)
    have hnum : ff_fill_rgb2yuv_table kr kb 1 1 * ff_fill_rgb2yuv_table kr kb 2 2 -
          ff_fill_rgb2yuv_table kr kb 1 2 * ff_fill_rgb2yuv_table kr kb 2 1 =
        ff_fill_rgb2yuv_table kr kb 1 2 * ff_fill_rgb2yuv_table kr kb 2 0 -
          ff_fill_rgb2yuv_table kr kb 1 0 * ff_fill_rgb2yuv_table kr kb 2 2 := by
      simp only [ff_fill_rgb2yuv_table]
      field_simp
      ring
    rw [hnum]
  · show (ff_fill_rgb2yuv_table kr kb 1 1 * ff_fill_rgb2yuv_table kr kb 2 2 -
          ff_fill_rgb2yuv_table kr kb 1 2 * ff_fill_rgb2yuv_table kr kb 2 1) /
         det3 (ff_fill_rgb2yuv_table kr kb) =
        (ff_fill_rgb2yuv_table kr kb 1 0 * ff_fill_rgb2yuv_table kr kb 2 1 -
          ff_fill_rgb2yuv_table kr kb 1 1 * ff_fill_rgb2yuv_table kr kb 2 0) /
         det3 (ff_fill_rgb2yuv_table kr kb)
    have hnum : ff_fill_rgb2yuv_table kr kb 1 1 * ff_fill_rgb2yuv_table kr kb 2 2 -
          ff_fill_rgb2yuv_table kr kb 1 2 * ff_fill_rgb2yuv_table kr kb 2 1 =
        ff_fill_rgb2yuv_table kr kb 1 0 * ff_fill_rgb2yuv_table kr kb 2 1 -
          ff_fill_rgb2yuv_table kr kb 1 1 * ff_fill_rgb2yuv_table kr kb 2 0 := by
      simp only [ff_fill_rgb2yuv_table]
      field_simp
      ring
    rw [hnum]

theorem row_sum_1 (kr kb : ℚ) (hkb : kb ≠ 1) :
    ff_fill_rgb2yuv_table kr kb 1 0 + ff_fill_rgb2yuv_table kr kb 1 1 +
      ff_fill_rgb2yuv_table kr kb 1 2 = 0 := by
  have h1 : (1:ℚ) - kb ≠ 0 := sub_ne_zero.mpr (Ne.symm hkb)
  simp only [ff_fill_rgb2yuv_table]
  field_simp
  ring

theorem row_sum_2 (kr kb : ℚ) (hkr : kr ≠ 1) :
    ff_fill_rgb2yuv_table kr kb 2 0 + ff_fill_rgb2yuv_table kr kb 2 1 +
      ff_fill_rgb2yuv_table kr kb 2 2 = 0 := by
  have h2 : (1:ℚ) - kr ≠ 0 := sub_ne_zero.mpr (Ne.symm hkr)
  simp only [ff_fill_rgb2yuv_table]
  field_simp

theorem yuv2yuv_col0_zero (kr kb kr' kb' : ℚ)
    (hkr : kr ≠ 1) (hkb : kb ≠ 1) (hkr' : kr' ≠ 1) (hkb' : kb' ≠ 1) :
    ff_matrix_mul_3x3 (ff_matrix_invert_3x3 (ff_fill_rgb2yuv_table kr kb))
      (ff_fill_rgb2yuv_table kr' kb') 1 0 = 0 ∧
    ff_matrix_mul_3x3 (ff_matrix_invert_3x3 (ff_fill_rgb2yuv_table kr kb))
      (ff_fill_rgb2yuv_table kr' kb') 2 0 = 0 := by
  obtain ⟨hc1, hc2⟩ := inv_col0 kr kb hkr hkb
  constructor
  · show ff_fill_rgb2yuv_table kr' kb' 1 0 *
        ff_matrix_invert_3x3 (ff_fill_rgb2yuv_table kr kb) 0 0 +
      ff_fill_rgb2yuv_table kr' kb' 1 1 *
        ff_matrix_invert_3x3 (ff_fill_rgb2yuv_table kr kb) 1 0 +
      ff_fill_rgb2yuv_table kr' kb' 1 2 *
        ff_matrix_invert_3x3 (ff_fill_rgb2yuv_table kr kb) 2 0 = 0
    rw [← hc1, ← hc2]
    have : ff_fill_rgb2yuv_table kr' kb' 1 0 *
          ff_matrix_invert_3x3 (ff_fill_rgb2yuv_table kr kb) 0 0 +
        ff_fill_rgb2yuv_table kr' kb' 1 1 *
          ff_matrix_invert_3x3 (ff_fill_rgb2yuv_table kr kb) 0 0 +
        ff_fill_rgb2yuv_table kr' kb' 1 2 *
          ff_matrix_invert_3x3 (ff_fill_rgb2yuv_table kr kb) 0 0 =
        (ff_fill_rgb2yuv_table kr' kb' 1 0 + ff_fill_rgb2yuv_table kr' kb' 1 1 +
         ff_fill_rgb2yuv_table kr' kb' 1 2) *
          ff_matrix_invert_3x3 (ff_fill_rgb2yuv_table kr kb) 0 0 := by ring
    rw [this, row_sum_1 kr' kb' hkb', zero_mul]
  · show ff_fill_rgb2yuv_table kr' kb' 2 0 *
        ff_matrix_invert_3x3 (ff_fill_rgb2yuv_table kr kb) 0 0 +
      ff_fill_rgb2yuv_table kr' kb' 2 1 *
        ff_matrix_invert_3x3 (ff_fill_rgb2yuv_table kr kb) 1 0 +
      ff_fill_rgb2yuv_table kr' kb' 2 2 *
        ff_matrix_invert_3x3 (ff_fill_rgb2yuv_table kr kb) 2 0 = 0
    rw [← hc1, ← hc2]
    have : ff_fill_rgb2yuv_table kr' kb' 2 0 *
          ff_matrix_invert_3x3 (ff_fill_rgb2yuv_table kr kb) 0 0 +
        ff_fill_rgb2yuv_table kr' kb' 2 1 *
          ff_matrix_invert_3x3 (ff_fill_rgb2yuv_table kr kb) 0 0 +
        ff_fill_rgb2yuv_table kr' kb' 2 2 *
          ff_matrix_invert_3x3 (ff_fill_rgb2yuv_table kr kb) 0 0 =
        (ff_fill_rgb2yuv_table kr' kb' 2 0 + ff_fill_rgb2yuv_table kr' kb' 2 1 +
         ff_fill_rgb2yuv_table kr' kb' 2 2) *
          ff_matrix_invert_3x3 (ff_fill_rgb2yuv_table kr kb) 0 0 := by ring
    rw [this, row_sum_2 kr' kb' hkr', zero_mul]

/-- Entries of the supported luma-coefficient table never equal 1. -/
theorem luma_coeffs_ne_one (csp : ℕ) (p : ℚ × ℚ)
    (h : av_csp_luma_coeffs_from_avcsp csp = some p) : p.1 ≠ 1 ∧ p.2 ≠ 1 := by
  unfold av_csp_luma_coeffs_from_avcsp at h
  split_ifs at h <;>
    first
      | exact Option.noConfusion h
      | (rw [Option.some.injEq] at h
         subst h
         refine ⟨?_, ?_⟩ <;> (dsimp only; rw [q_eq_div]; norm_num))

/-- C2: for every configuration accepted by `create_filtergraph`, the
quantised int16 coefficient tables satisfy the configuration-time
assertions: `yuv2rgb_coeffs[0][1] == 0`, `yuv2rgb_coeffs[2][2] == 0`,
`yuv2rgb_coeffs[0][0] == yuv2rgb_coeffs[1][0] == yuv2rgb_coeffs[2][0]`,
`rgb2yuv_coeffs[1][2] == rgb2yuv_coeffs[2][0]`, and, whenever the
yuv2yuv fast-mode coefficients are built,
`yuv2yuv_coeffs[1][0] == yuv2yuv_coeffs[2][0] == 0`. -/
theorem coefficient_assertions (s : Ctx) (fin fout : Frame) (cfg : Cfg)
    (h : create_filtergraph s fin fout = Except.ok cfg) :
    (∀ C, cfg.yuv2rgb_coeffs = some C →
      C 0 1 = 0 ∧ C 2 2 = 0 ∧ C 0 0 = C 1 0 ∧ C 0 0 = C 2 0)
  ∧ (∀ D, cfg.rgb2yuv_coeffs = some D → D 1 2 = D 2 0)
  ∧ (∀ E, cfg.yuv2yuv_coeffs = some E → E 1 0 = 0 ∧ E 2 0 = 0) := by
  unfold create_filtergraph at h
  split at h
  · exact Except.noConfusion h
  split at h
  · exact Except.noConfusion h
  split at h
  · exact Except.noConfusion h
  split at h
  · exact Except.noConfusion h
  rename_i inP hinP
  split at h
  · exact Except.noConfusion h
  rename_i outP houtP
  split at h
  · exact Except.noConfusion h
  rename_i inTC hinTC
  split at h
  · exact Except.noConfusion h
  split at h
  · exact Except.noConfusion h
  rename_i inL hinL
  split at h
  · exact Except.noConfusion h
  rename_i outL houtL
  simp only [create_rest] at h
  split at h
  · rw [Except.ok.injEq] at h
    subst h
    exact ⟨fun C hC => absurd hC (by simp),
           fun D hD => absurd hD (by simp),
           fun E hE => absurd hE (by simp)⟩
  · split at h
    · exact Except.noConfusion h
    split at h
    · exact Except.noConfusion h
    rw [Except.ok.injEq] at h
    subst h
    obtain ⟨hkr, hkb⟩ := luma_coeffs_ne_one _ _ hinL
    obtain ⟨hkr', hkb'⟩ := luma_coeffs_ne_one _ _ houtL
    refine ⟨fun C hC => ?_, fun D hD => ?_, fun E hE => ?_⟩
    · simp only [Option.some.injEq] at hC
      subst hC
      refine ⟨?_, ?_, ?_, ?_⟩
      · unfold quant_yuv2rgb
        rw [inv_01]
        simp
      · unfold quant_yuv2rgb
        rw [inv_22]
        simp
      · unfold quant_yuv2rgb
        rw [(inv_col0 inL.1 inL.2 hkr hkb).1]
      · unfold quant_yuv2rgb
        rw [(inv_col0 inL.1 inL.2 hkr hkb).2]
    · simp only [Option.some.injEq] at hD
      subst hD
      unfold quant_rgb2yuv
      norm_num
      rfl
    · split at hE
      · simp only [Option.some.injEq] at hE
        subst hE
        obtain ⟨hz1, hz2⟩ :=
          yuv2yuv_col0_zero inL.1 inL.2 outL.1 outL.2 hkr hkb hkr' hkb'
        constructor
        · unfold quant_yuv2yuv
          rw [hz1]
          simp
        · unfold quant_yuv2yuv
          rw [hz2]
          simp
      · exact Option.noConfusion hE

/-- A frame with the BT.709 matrix tag (conversion source). -/
def frame709mat : Frame := ⟨64, 64, yuv420p8, 1, 1, 1, 1, [1, 2]⟩

/-- The same characterisation except a BT.470BG matrix tag (conversion
target): only the luma coefficients change, so the fast-mode fused
yuv2yuv table is also built. -/
def frame601mat : Frame := ⟨64, 64, yuv420p8, 1, 1, 5, 1, []⟩

/-- Default a missing coefficient table to the zero matrix. -/
def omat (x : Option (Mat3 ℤ)) : Mat3 ℤ := x.getD (fun _ _ => 0)

theorem coefficient_assertions_witness :
    omat (getCfg (create_filtergraph {} frame709mat frame601mat)).yuv2rgb_coeffs 0 1 = 0
  ∧ omat (getCfg (create_filtergraph {} frame709mat frame601mat)).yuv2rgb_coeffs 2 2 = 0
  ∧ omat (getCfg (create_filtergraph {} frame709mat frame601mat)).yuv2rgb_coeffs 0 0 =
      omat (getCfg (create_filtergraph {} frame709mat frame601mat)).yuv2rgb_coeffs 1 0
  ∧ omat (getCfg (create_filtergraph {} frame709mat frame601mat)).yuv2rgb_coeffs 0 0 =
      omat (getCfg (create_filtergraph {} frame709mat frame601mat)).yuv2rgb_coeffs 2 0
  ∧ omat (getCfg (create_filtergraph {} frame709mat frame601mat)).rgb2yuv_coeffs 1 2 =
      omat (getCfg (create_filtergraph {} frame709mat frame601mat)).rgb2yuv_coeffs 2 0
  ∧ omat (getCfg (create_filtergraph {} frame709mat frame601mat)).yuv2yuv_coeffs 1 0 = 0
  ∧ omat (getCfg (create_filtergraph {} frame709mat frame601mat)).yuv2yuv_coeffs 2 0 = 0 := by
  have t := coefficient_assertions {} frame709mat frame601mat
    (getCfg (create_filtergraph {} frame709mat frame601mat)) (by rfl)
  obtain ⟨t1, t2, t3⟩ := t
  have h1 := t1 _ (by rfl)
  have h2 := t2 _ (by rfl)
  have h3 := t3 _ (by rfl)
  exact ⟨h1.1, h1.2.1, h1.2.2.1, h1.2.2.2, h2, h3.1, h3.2⟩

end VfColorspace
